import Mathlib

/-
Verification of the balance-aggregation pipeline and the request-deduplication
cache of the sodex dashboard (source file lib/sodex-api.ts).

Numbers flowing through the pipeline are modelled as rationals.  The JS
builtin parseFloat is a collaborator at the embedding boundary: definitions
take an abstract parse function pf : String -> Rat as a parameter, exactly
where the source applies parseFloat to a string field.  HTTP responses are
modelled as already-received values carrying the ok flag, the status text and
the decoded JSON body; a rejected transport promise is outside the model, as
it is outside the specification (its error taxonomy starts at the non-OK HTTP
status).  Thrown JS errors are modelled with Except String.
-/

namespace SodexApi

/-- An HTTP response as the fetch helpers in lib/sodex-api.ts observe it:
the ok flag, the status text used in error messages, and the decoded body. -/
structure HttpResponse (α : Type) where
  ok : Bool
  statusText : String
  body : α

/-- interface PositionData (lib/sodex-api.ts lines 6 to 29). -/
structure PositionData where
  account_id : Int
  position_id : Int
  user_id : Int
  symbol_id : Int
  margin_mode : Int
  position_side : Int
  size : String
  initial_margin : String
  avg_entry_price : String
  cum_open_cost : String
  cum_trading_fee : String
  cum_closed_size : String
  avg_close_price : String
  max_size : String
  realized_pnl : String
  frozen_size : String
  leverage : Int
  active : Bool
  is_taken_over : Bool
  take_over_price : String
  created_at : Int
  updated_at : Int
deriving DecidableEq

/-- interface PositionsResponse (lib/sodex-api.ts lines 39 to 44). -/
structure PositionsResponse where
  code : Int
  message : String
  data : List PositionData
  next_cursor : Option String

/-- interface OpenPositionData (lib/sodex-api.ts lines 183 to 199). -/
structure OpenPositionData where
  symbol : String
  positionId : String
  contractType : String
  positionType : String
  positionSide : String
  positionSize : String
  entryPrice : String
  liquidationPrice : String
  isolatedMargin : String
  leverage : Int
  unrealizedProfit : String
  realizedProfit : String
  cumTradingFee : String
  createdTime : Int
  updatedTime : Int

/-- interface BalanceData of the futures account (lib/sodex-api.ts lines 201
to 206): one entry of the balances list of the account details. -/
structure BalanceData where
  coin : String
  walletBalance : String
  openOrderMarginFrozen : String
  availableBalance : String

/-- interface AccountDetailsData (lib/sodex-api.ts lines 208 to 215). -/
structure AccountDetailsData where
  positions : List OpenPositionData
  balances : List BalanceData
  isolatedMargin : String
  crossMargin : String
  availableMarginForIsolated : String
  availableMarginForCross : String

/-- interface AccountDetailsResponse (lib/sodex-api.ts lines 217 to 221). -/
structure AccountDetailsResponse where
  code : Int
  timestamp : Int
  data : AccountDetailsData

/-- interface SpotBalance (lib/sodex-api.ts lines 249 to 253). -/
structure SpotBalance where
  coin : String
  balance : String
  availableBalance : String

/-- The data object of SpotBalanceResponse (lib/sodex-api.ts lines 255
to 261). -/
structure SpotBalanceBody where
  spotBalance : List SpotBalance
  totalUsdtAmount : Rat

/-- interface SpotBalanceResponse (lib/sodex-api.ts lines 255 to 261). -/
structure SpotBalanceResponse where
  code : Int
  data : SpotBalanceBody

/-- interface MarkPrice of the primary price feed (lib/sodex-api.ts lines
284 to 288): s is a symbol such as BTC-USD, p the price, t a timestamp. -/
structure MarkPrice where
  s : String
  p : String
  t : Int

/-- interface MarkPriceResponse (lib/sodex-api.ts lines 290 to 293). -/
structure MarkPriceResponse where
  code : Int
  data : List MarkPrice

/-- interface FallbackMarkPrice (lib/sodex-api.ts lines 316 to 319). -/
structure FallbackMarkPrice where
  symbol : String
  markPrice : String

/-- interface FallbackMarkPriceResponse (lib/sodex-api.ts lines 321
to 324). -/
structure FallbackMarkPriceResponse where
  code : Int
  data : List FallbackMarkPrice

/-- JS string defaulting s || d for a string s: the empty string is the only
falsy string, so it is replaced by the default. -/
def jsOr (s d : String) : String :=
  if s = "" then d else s

/-- JS defaulting x || d where x is an optional string field: undefined and
the empty string both fall back to the default. -/
def jsOrOpt (o : Option String) (d : String) : String :=
  match o with
  | none => d
  | some s => jsOr s d

/-- Whether the string begins with the character c: the meaning of the JS
test s.startsWith(c) for a one-character c, stated on the character list so
that it evaluates inside the kernel. -/
def startsWithChar (s : String) (c : Char) : Bool :=
  match s.data with
  | [] => false
  | d :: _ => d = c

/-- Removing the first character of a string: the meaning of the JS
expression s.slice(1), stated on the character list. -/
def dropFirstChar (s : String) : String :=
  String.mk s.data.tail

/-- Models the JS expression s.split(the dash character)[0] as used on price
symbols: the part of the string before the first dash, the whole string when
no dash occurs. -/
def symbolBase (s : String) : String :=
  String.mk (s.data.takeWhile (fun c => c ≠ '-'))

/-- function normalizeTokenName (lib/sodex-api.ts lines 358 to 368):
remove a leading lowercase v, then apply the special-case aliases. -/
def normalizeTokenName (coin : String) : String :=
  let normalized := if startsWithChar coin 'v' then dropFirstChar coin else coin
  if normalized = "SOSO" ∨ normalized = "WSOSO" then "SOSO"
  else if normalized = "MAG7.ssi" then "MAG7"
  else if normalized = "USDC" then "USDC"
  else normalized

/-- The normalization policy as the specification words it (spec section
4.2): strip a single leading v character if present, then map SOSO and WSOSO
to SOSO, MAG7.ssi to MAG7, USDC to USDC, and keep every other stripped name
unchanged.  Stated separately from normalizeTokenName so that the code can
be proved to refine the words. -/
def normalizeTokenNameSpec (coin : String) : String :=
  let stripped := if startsWithChar coin 'v' then dropFirstChar coin else coin
  if stripped = "SOSO" then "SOSO"
  else if stripped = "WSOSO" then "SOSO"
  else if stripped = "MAG7.ssi" then "MAG7"
  else if stripped = "USDC" then "USDC"
  else stripped

/-- A JS Map from token symbol to numeric USD price, as a lookup function:
what Map.get returns for each key. -/
def PriceMap : Type := String → Option Rat

/-- new Map(): every lookup misses. -/
def emptyPriceMap : PriceMap := fun _ => none

/-- Map.set(k, v): later writes overwrite earlier ones for the same key. -/
def setPrice (m : PriceMap) (k : String) (v : Rat) : PriceMap :=
  fun x => if x = k then some v else m x

/-- The primary price lookup built in fetchTotalBalance (lib/sodex-api.ts
lines 452 to 456): for each primary mark price, key the part of the symbol
before the dash to the parsed price. -/
def buildPrimaryPriceMap (pf : String → Rat) (markPrices : List MarkPrice) : PriceMap :=
  markPrices.foldl (fun m mp => setPrice m (symbolBase mp.s) (pf mp.p)) emptyPriceMap

/-- The price resolution of fetchTotalBalance (lib/sodex-api.ts lines 464
to 477): consult the primary map, and only on a miss the fallback map. -/
def resolvePrice (primary fallback : PriceMap) (normalized : String) : Option Rat :=
  match primary normalized with
  | some price => some price
  | none => fallback normalized

/-- What one spot token adds to the USD sum in fetchTotalBalance: amount
times resolved price when a price was found, nothing when both maps miss. -/
def spotTokenTerm (pf : String → Rat) (primary fallback : PriceMap)
    (token : SpotBalance) : Rat :=
  match resolvePrice primary fallback (normalizeTokenName token.coin) with
  | none => 0
  | some price => pf token.balance * price

/-- The spot USD accumulation loop of fetchTotalBalance (lib/sodex-api.ts
lines 459 to 486): normalize each coin, resolve its price primary-first, add
amount times price when found, and leave the accumulator untouched when
neither source has a price. -/
def spotBalanceUSD (pf : String → Rat) (primary fallback : PriceMap)
    (spotTokens : List SpotBalance) : Rat :=
  spotTokens.foldl (fun acc token =>
    match resolvePrice primary fallback (normalizeTokenName token.coin) with
    | none => acc
    | some price => acc + pf token.balance * price) 0

/-- The string handed to parseFloat on lib/sodex-api.ts line 489: the
walletBalance of the first balances entry, with the JS || default to the
string 0 when the entry is absent or the field empty. -/
def firstWalletBalanceStr (balances : List BalanceData) : String :=
  match balances.head? with
  | none => "0"
  | some b => jsOr b.walletBalance "0"

/-- The record fetchTotalBalance resolves with (lib/sodex-api.ts lines 495
to 499). -/
structure TotalBalanceResult where
  spotBalance : Rat
  futuresBalance : Rat
  totalBalance : Rat

/-- The aggregation of fetchTotalBalance after its four upstream fetches
have delivered (lib/sodex-api.ts lines 451 to 499): build the primary price
map, sum the spot tokens, parse the first futures wallet balance, and return
the three fields with the total as the sum. -/
def fetchTotalBalanceCore (pf : String → Rat) (accountData : AccountDetailsData)
    (spotTokens : List SpotBalance) (markPrices : List MarkPrice)
    (fallbackPrices : PriceMap) : TotalBalanceResult :=
  let primaryPriceMap := buildPrimaryPriceMap pf markPrices
  let spot := spotBalanceUSD pf primaryPriceMap fallbackPrices spotTokens
  let futures := pf (firstWalletBalanceStr accountData.balances)
  { spotBalance := spot, futuresBalance := futures, totalBalance := spot + futures }

/-- The response handling of fetchAccountDetails (lib/sodex-api.ts lines 229
to 240): throw on a non-OK HTTP status, throw on a non-zero body code, and
otherwise produce the data object. -/
def fetchAccountDetails (resp : HttpResponse AccountDetailsResponse) :
    Except String AccountDetailsData :=
  if !resp.ok then
    .error (String.append "Failed to fetch account details: " resp.statusText)
  else if resp.body.code ≠ 0 then
    .error "API error: Failed to fetch account details"
  else
    .ok resp.body.data

/-- The response handling of fetchSpotBalance (lib/sodex-api.ts lines 269 to
280): throw on a non-OK HTTP status, throw on a non-zero body code, and
otherwise produce the spot balance list. -/
def fetchSpotBalance (resp : HttpResponse SpotBalanceResponse) :
    Except String (List SpotBalance) :=
  if !resp.ok then
    .error (String.append "Failed to fetch spot balance: " resp.statusText)
  else if resp.body.code ≠ 0 then
    .error "API error: Failed to fetch spot balance"
  else
    .ok resp.body.data.spotBalance

/-- The response handling of fetchMarkPrices (lib/sodex-api.ts lines 301 to
312): throw on a non-OK HTTP status, throw on a non-zero body code, and
otherwise produce the mark price list. -/
def fetchMarkPrices (resp : HttpResponse MarkPriceResponse) :
    Except String (List MarkPrice) :=
  if !resp.ok then
    .error (String.append "Failed to fetch mark prices: " resp.statusText)
  else if resp.body.code ≠ 0 then
    .error "API error: Failed to fetch mark prices"
  else
    .ok resp.body.data

/-- The response handling of fetchFallbackMarkPrices (lib/sodex-api.ts lines
332 to 353): a non-OK HTTP status or a non-zero body code produce an empty
map after a console warning, never a thrown error; on success the map keys
the part of each symbol before the dash to the parsed mark price. -/
def fetchFallbackMarkPrices (pf : String → Rat)
    (resp : HttpResponse FallbackMarkPriceResponse) : Except String PriceMap :=
  if !resp.ok then
    .ok emptyPriceMap
  else if resp.body.code ≠ 0 then
    .ok emptyPriceMap
  else
    .ok (resp.body.data.foldl
      (fun m mp => setPrice m (symbolBase mp.symbol) (pf mp.markPrice))
      emptyPriceMap)

/-- fetchTotalBalance (lib/sodex-api.ts lines 438 to 505) given the four
upstream responses: the four fetch helpers run under Promise.all, so any
thrown error among them aborts the aggregation, and the catch block rethrows;
on success the pure aggregation is applied. -/
def fetchTotalBalance (pf : String → Rat)
    (accountResp : HttpResponse AccountDetailsResponse)
    (spotResp : HttpResponse SpotBalanceResponse)
    (markResp : HttpResponse MarkPriceResponse)
    (fallbackResp : HttpResponse FallbackMarkPriceResponse) :
    Except String TotalBalanceResult := do
  let accountData ← fetchAccountDetails accountResp
  let spotTokens ← fetchSpotBalance spotResp
  let markPrices ← fetchMarkPrices markResp
  let fallbackPrices ← fetchFallbackMarkPrices pf fallbackResp
  pure (fetchTotalBalanceCore pf accountData spotTokens markPrices fallbackPrices)

/-- What fetchPositions returns to its caller (lib/sodex-api.ts lines 78 to
81): the page items and the optional continuation cursor. -/
structure FetchPositionsResult where
  positions : List PositionData
  nextCursor : Option String
deriving DecidableEq

/-- The response handling of fetchPositions (lib/sodex-api.ts lines 68 to
81): throw on a non-OK HTTP status, throw on a non-zero body code, and
otherwise produce the page items with the optional cursor. -/
def fetchPositions (resp : HttpResponse PositionsResponse) :
    Except String FetchPositionsResult :=
  if !resp.ok then
    .error (String.append "Failed to fetch positions: " resp.statusText)
  else if resp.body.code ≠ 0 then
    .error (String.append "API error: " resp.body.message)
  else
    .ok { positions := resp.body.data, nextCursor := resp.body.next_cursor }

/-- The JS loop guard on lib/sodex-api.ts line 95: the cursor is falsy when
it is undefined or the empty string, and then the loop breaks. -/
def cursorFalsy (o : Option String) : Bool :=
  match o with
  | none => true
  | some s => s = ""

/-- The while loop of fetchAllPositions (lib/sodex-api.ts lines 87 to 101),
indexed by fuel: fetch the page for the current cursor, keep its items, stop
when the returned cursor is falsy and continue with it otherwise.  The fuel
only bounds the modelled iteration count; none stands for fuel running out
before the endpoint stopped. -/
def fetchAllPositionsLoop (endpoint : Option String → FetchPositionsResult) :
    Nat → Option String → Option (List PositionData)
  | 0, _ => none
  | fuel + 1, cursor =>
    let page := endpoint cursor
    if cursorFalsy page.nextCursor then
      some page.positions
    else
      (fetchAllPositionsLoop endpoint fuel page.nextCursor).map
        (fun rest => page.positions ++ rest)

/-- fetchAllPositions (lib/sodex-api.ts lines 84 to 102): run the pagination
loop from an absent cursor. -/
def fetchAllPositions (endpoint : Option String → FetchPositionsResult)
    (fuel : Nat) : Option (List PositionData) :=
  fetchAllPositionsLoop endpoint fuel none

/-- The endpoint stops after exactly n cursor hops from the given cursor:
every page before the last carries a truthy continuation cursor and the page
reached after n hops carries none (or an empty one). -/
def stopsAfter (endpoint : Option String → FetchPositionsResult) :
    Nat → Option String → Prop
  | 0, cursor => cursorFalsy (endpoint cursor).nextCursor = true
  | n + 1, cursor =>
    cursorFalsy (endpoint cursor).nextCursor = false ∧
      stopsAfter endpoint n (endpoint cursor).nextCursor

/-- The pages the endpoint serves along the cursor chain of length n + 1
starting at the given cursor, in fetch order. -/
def pagesThrough (endpoint : Option String → FetchPositionsResult) :
    Nat → Option String → List FetchPositionsResult
  | 0, cursor => [endpoint cursor]
  | n + 1, cursor => endpoint cursor :: pagesThrough endpoint n (endpoint cursor).nextCursor

/-- interface TokenBalance (lib/sodex-api.ts lines 507 to 512). -/
structure TokenBalance where
  token : String
  coin : String
  balance : Rat
  usdValue : Rat

/-- A raw spot token record as fetchDetailedBalance reads it from the
untyped spot response (lib/sodex-api.ts lines 399 to 408): the usdValue
field is not declared on the SpotBalance interface and may be absent. -/
structure SpotTokenRaw where
  coin : String
  balance : String
  usdValue : Option String

/-- The coin cleanup on lib/sodex-api.ts line 403: the regular expression
replace removing one leading v or w character. -/
def cleanTokenCoin (coin : String) : String :=
  if startsWithChar coin 'v' ∨ startsWithChar coin 'w' then dropFirstChar coin else coin

/-- The token list built by fetchDetailedBalance (lib/sodex-api.ts lines 397
to 420): keep the tokens with positive parsed balance, clean the coin name,
and value at the provided usdValue when positive, else at the raw balance. -/
def detailedBalanceTokens (pf : String → Rat) (spotBalance : List SpotTokenRaw) :
    List TokenBalance :=
  spotBalance.filterMap (fun tokenData =>
    let balance := pf (jsOr tokenData.balance "0")
    if balance > 0 then
      let cleanCoin := cleanTokenCoin tokenData.coin
      let usdValue := pf (jsOrOpt tokenData.usdValue "0")
      some { token := cleanCoin, coin := tokenData.coin, balance := balance,
             usdValue := if usdValue > 0 then usdValue else balance }
    else
      none)

/-- The token list as the claim words it: exactly the spot tokens with
strictly positive parsed balance, each named by the coin with a single
leading v or w removed, and valued at the upstream usdValue when that parses
positive, else at the raw balance. -/
def detailedBalanceTokensSpec (pf : String → Rat) (spotBalance : List SpotTokenRaw) :
    List TokenBalance :=
  (spotBalance.filter (fun t => 0 < pf (jsOr t.balance "0"))).map (fun t =>
    { token := cleanTokenCoin t.coin
      coin := t.coin
      balance := pf (jsOr t.balance "0")
      usdValue :=
        if 0 < pf (jsOrOpt t.usdValue "0") then pf (jsOrOpt t.usdValue "0")
        else pf (jsOr t.balance "0") })

/-- Modelled from the spec: the deduplicating cache behind cacheManager
(the module lib/cache is not among the sources; only its call sites are).
Spec sections 4.1 and 5: a key is Empty, Pending, or Fulfilled with an
expiry timestamp.  A pending entry records which producer invocation the
waiters share. -/
inductive CacheEntry (V : Type) where
  | pending (invocation : Nat)
  | fulfilled (value : V) (expiresAt : Nat)
deriving DecidableEq

/-- Modelled from the spec: the internal table of the deduplicating cache,
together with an invocation counter used to count producer starts and to
name the next invocation. -/
structure CacheState (V : Type) where
  table : String → Option (CacheEntry V)
  producerStarts : Nat
  nextInvocation : Nat

/-- Writing one key of the cache table. -/
def setEntry {V : Type} (t : String → Option (CacheEntry V)) (k : String)
    (e : Option (CacheEntry V)) : String → Option (CacheEntry V) :=
  fun x => if x = k then e else t x

/-- Modelled from the spec: what one call to deduplicate hands back to its
caller before any settlement: either a live cached value, or the invocation
whose outcome the caller awaits. -/
inductive CallOutcome (V : Type) where
  | cachedValue (value : V)
  | awaitInvocation (invocation : Nat)
deriving DecidableEq

/-- Modelled from the spec: one call to deduplicate(key, producer) at the
given time, in the single cooperative execution context of spec section 5.
A live fulfilled entry is returned without starting the producer; a pending
entry is joined without starting the producer; otherwise the producer is
started and the key becomes pending under a fresh invocation. -/
def dedupCall {V : Type} (now : Nat) (key : String) (st : CacheState V) :
    CacheState V × CallOutcome V :=
  match st.table key with
  | some (.fulfilled v exp) =>
    if now < exp then (st, .cachedValue v)
    else
      ({ table := setEntry st.table key (some (.pending st.nextInvocation))
         producerStarts := st.producerStarts + 1
         nextInvocation := st.nextInvocation + 1 },
       .awaitInvocation st.nextInvocation)
  | some (.pending i) => (st, .awaitInvocation i)
  | none =>
    ({ table := setEntry st.table key (some (.pending st.nextInvocation))
       producerStarts := st.producerStarts + 1
       nextInvocation := st.nextInvocation + 1 },
     .awaitInvocation st.nextInvocation)

/-- Modelled from the spec: a batch of calls to deduplicate for the same
key, arriving one after the other at the listed times (cooperative
scheduling serializes arrivals); produces the final state and each call's
outcome in order. -/
def dedupCalls {V : Type} (times : List Nat) (key : String) (st : CacheState V) :
    CacheState V × List (CallOutcome V) :=
  match times with
  | [] => (st, [])
  | t :: ts =>
    let (st1, out) := dedupCall t key st
    let (st2, outs) := dedupCalls ts key st1
    (st2, out :: outs)

/-- Modelled from the spec: the producer for the key succeeded with value v
at the given completion time; the entry is overwritten with the value and an
expiry of completion time plus the configured TTL. -/
def settleSuccess {V : Type} (ttl completionTime : Nat) (key : String) (v : V)
    (st : CacheState V) : CacheState V :=
  { st with table := setEntry st.table key (some (.fulfilled v (completionTime + ttl))) }

/-- Modelled from the spec: the producer for the key failed; the entry is
cleared so the next call retries from scratch. -/
def settleFailure {V : Type} (key : String) (st : CacheState V) : CacheState V :=
  { st with table := setEntry st.table key none }

/-- Modelled from the spec: what a caller finally receives, given the
settlement of each producer invocation: a cached value is received as a
success, and an awaited invocation delivers that invocation's success or
failure to every caller holding it. -/
def deliver {V E : Type} (settled : Nat → Except E V) :
    CallOutcome V → Except E V
  | .cachedValue v => .ok v
  | .awaitInvocation i => settled i

/-- A parse function for concrete checks that reads every string as one. -/
def samplePF : String → Rat := fun _ => 1

/-- A healthy account-details response with one USDC futures balance. -/
def sampleAccountRespOk : HttpResponse AccountDetailsResponse :=
  { ok := true, statusText := "OK"
    body :=
      { code := 0, timestamp := 0
        data :=
          { positions := []
            balances := [{ coin := "USDC", walletBalance := "7",
                           openOrderMarginFrozen := "0", availableBalance := "7" }]
            isolatedMargin := "0", crossMargin := "0"
            availableMarginForIsolated := "0", availableMarginForCross := "0" } } }

/-- An account-details response whose HTTP status failed. -/
def sampleAccountRespBad : HttpResponse AccountDetailsResponse :=
  { ok := false, statusText := "boom"
    body :=
      { code := 0, timestamp := 0
        data :=
          { positions := [], balances := []
            isolatedMargin := "0", crossMargin := "0"
            availableMarginForIsolated := "0", availableMarginForCross := "0" } } }

/-- A healthy spot-balance response holding one wrapped BTC token. -/
def sampleSpotRespOk : HttpResponse SpotBalanceResponse :=
  { ok := true, statusText := "OK"
    body :=
      { code := 0
        data :=
          { spotBalance := [{ coin := "vBTC", balance := "2", availableBalance := "2" }]
            totalUsdtAmount := 0 } } }

/-- A healthy primary mark-price response quoting BTC. -/
def sampleMarkRespOk : HttpResponse MarkPriceResponse :=
  { ok := true, statusText := "OK"
    body := { code := 0, data := [{ s := "BTC-USD", p := "50000", t := 0 }] } }

/-- A healthy fallback mark-price response with no quotes. -/
def sampleFallbackRespOk : HttpResponse FallbackMarkPriceResponse :=
  { ok := true, statusText := "OK", body := { code := 0, data := [] } }

/-- A concrete position record keyed by an id, for concrete pagination
checks. -/
def samplePosition (n : Int) : PositionData :=
  { account_id := n, position_id := n, user_id := n, symbol_id := n
    margin_mode := 1, position_side := 2
    size := "1", initial_margin := "1", avg_entry_price := "1"
    cum_open_cost := "1", cum_trading_fee := "0", cum_closed_size := "0"
    avg_close_price := "0", max_size := "1", realized_pnl := "0"
    frozen_size := "0", leverage := 1, active := true, is_taken_over := false
    take_over_price := "0", created_at := 0, updated_at := 0 }

/-- A mocked paginated positions endpoint with two pages: the first request
returns two items and a continuation cursor, the cursor request returns one
item and no cursor. -/
def samplePagedEndpoint : Option String → FetchPositionsResult := fun cursor =>
  match cursor with
  | none => { positions := [samplePosition 1, samplePosition 2], nextCursor := some "page2" }
  | some _ => { positions := [samplePosition 3], nextCursor := none }

/-- Modelled from the spec: the cache before any call, every key Empty. -/
def emptyCacheState (V : Type) : CacheState V :=
  { table := fun _ => none, producerStarts := 0, nextInvocation := 0 }

/-- The alias table applied to an already-stripped name agrees whether the
SOSO and WSOSO cases are tested together or one after the other. -/
theorem aliasTable_eq (s : String) :
    (if s = "SOSO" ∨ s = "WSOSO" then "SOSO"
     else if s = "MAG7.ssi" then "MAG7"
     else if s = "USDC" then "USDC"
     else s) =
    (if s = "SOSO" then "SOSO"
     else if s = "WSOSO" then "SOSO"
     else if s = "MAG7.ssi" then "MAG7"
     else if s = "USDC" then "USDC"
     else s) := by
  by_cases h1 : s = "SOSO" <;> by_cases h2 : s = "WSOSO" <;> simp [h1, h2]

/-- Claim C3: for every input string, normalizeTokenName first strips a
single leading v character if present, then maps SOSO and WSOSO to SOSO,
MAG7.ssi to MAG7, USDC to USDC, and returns every other stripped name
unchanged; in particular WSOSO normalizes to SOSO, MAG7.ssi to MAG7 and
vETH to ETH. -/
theorem normalizeTokenName_matches_spec :
    (∀ coin : String, normalizeTokenName coin = normalizeTokenNameSpec coin)
    ∧ normalizeTokenName "WSOSO" = "SOSO"
    ∧ normalizeTokenName "MAG7.ssi" = "MAG7"
    ∧ normalizeTokenName "vETH" = "ETH" := by
  refine ⟨fun coin => ?_, by decide, by decide, by decide⟩
  unfold normalizeTokenName normalizeTokenNameSpec
  exact aliasTable_eq _

/-- The spot accumulation loop started at any accumulator adds exactly the
sum of the per-token terms. -/
theorem spotBalanceUSD_foldl (pf : String → Rat) (primary fallback : PriceMap) :
    ∀ (l : List SpotBalance) (acc : Rat),
      l.foldl (fun acc token =>
        match resolvePrice primary fallback (normalizeTokenName token.coin) with
        | none => acc
        | some price => acc + pf token.balance * price) acc
      = acc + (l.map (spotTokenTerm pf primary fallback)).sum
  | [], acc => by simp
  | t :: ts, acc => by
    simp only [List.foldl_cons, List.map_cons, List.sum_cons]
    cases h : resolvePrice primary fallback (normalizeTokenName t.coin) with
    | none =>
      rw [spotBalanceUSD_foldl pf primary fallback ts]
      simp [spotTokenTerm, h]
    | some price =>
      rw [spotBalanceUSD_foldl pf primary fallback ts]
      simp only [spotTokenTerm, h]
      ring

/-- The spot USD sum is the sum of the per-token terms. -/
theorem spotBalanceUSD_eq_sum (pf : String → Rat) (primary fallback : PriceMap)
    (l : List SpotBalance) :
    spotBalanceUSD pf primary fallback l
      = (l.map (spotTokenTerm pf primary fallback)).sum := by
  unfold spotBalanceUSD
  rw [spotBalanceUSD_foldl pf primary fallback l 0]
  simp

/-- Claim C2: a spot token whose normalized symbol is missing from both
price maps contributes exactly zero to the spot USD sum, by being skipped
with no error, and price resolution consults the primary map first and the
fallback map only on a primary miss. -/
theorem unpriced_token_skipped :
    (∀ (pf : String → Rat) (primary fallback : PriceMap)
        (ts1 ts2 : List SpotBalance) (t : SpotBalance),
        primary (normalizeTokenName t.coin) = none →
        fallback (normalizeTokenName t.coin) = none →
        spotBalanceUSD pf primary fallback (ts1 ++ t :: ts2)
          = spotBalanceUSD pf primary fallback (ts1 ++ ts2))
    ∧ (∀ (primary fallback : PriceMap) (s : String) (p : Rat),
        primary s = some p → resolvePrice primary fallback s = some p)
    ∧ (∀ (primary fallback : PriceMap) (s : String),
        primary s = none → resolvePrice primary fallback s = fallback s) := by
  refine ⟨?_, ?_, ?_⟩
  · intro pf primary fallback ts1 ts2 t h1 h2
    have hterm : spotTokenTerm pf primary fallback t = 0 := by
      unfold spotTokenTerm resolvePrice
      rw [h1, h2]
    rw [spotBalanceUSD_eq_sum, spotBalanceUSD_eq_sum]
    simp [hterm]
  · intro primary fallback s p h
    unfold resolvePrice
    rw [h]
  · intro primary fallback s h
    unfold resolvePrice
    rw [h]

/-- Concrete instance of claim C2: a token named FOO with balance 5 and no
price in either map leaves the spot USD sum untouched, and the two
resolution orderings at a concrete key. -/
theorem unpriced_token_skipped_witness :
    spotBalanceUSD (fun _ => 1) emptyPriceMap emptyPriceMap
        ([] ++ { coin := "FOO", balance := "5", availableBalance := "5" } :: [])
      = spotBalanceUSD (fun _ => 1) emptyPriceMap emptyPriceMap ([] ++ [])
    ∧ resolvePrice (setPrice emptyPriceMap "BTC" 5) emptyPriceMap "BTC" = some 5
    ∧ resolvePrice emptyPriceMap (setPrice emptyPriceMap "BTC" 7) "BTC"
        = setPrice emptyPriceMap "BTC" 7 "BTC" :=
  ⟨unpriced_token_skipped.1 (fun _ => 1) emptyPriceMap emptyPriceMap [] []
      { coin := "FOO", balance := "5", availableBalance := "5" } rfl rfl,
   unpriced_token_skipped.2.1 (setPrice emptyPriceMap "BTC" 5) emptyPriceMap "BTC" 5 rfl,
   unpriced_token_skipped.2.2 emptyPriceMap (setPrice emptyPriceMap "BTC" 7) "BTC" rfl⟩

/-- Claim C6: fetchFallbackMarkPrices never throws, and a non-OK HTTP status
or a non-zero body code yields the empty price map, so a fallback-source
failure cannot abort the enclosing aggregation. -/
theorem fallback_failure_degrades_to_empty :
    (∀ (pf : String → Rat) (resp : HttpResponse FallbackMarkPriceResponse),
        ∃ m, fetchFallbackMarkPrices pf resp = .ok m)
    ∧ (∀ (pf : String → Rat) (resp : HttpResponse FallbackMarkPriceResponse),
        resp.ok = false ∨ resp.body.code ≠ 0 →
        fetchFallbackMarkPrices pf resp = .ok emptyPriceMap) := by
  constructor
  · intro pf resp
    unfold fetchFallbackMarkPrices
    split_ifs <;> exact ⟨_, rfl⟩
  · intro pf resp h
    unfold fetchFallbackMarkPrices
    rcases h with h | h
    · simp [h]
    · split_ifs <;> simp_all

/-- Concrete instance of claim C6: a response with HTTP failure degrades to
the empty price map. -/
theorem fallback_failure_degrades_to_empty_witness :
    fetchFallbackMarkPrices (fun _ => 0)
        { ok := false, statusText := "Service Unavailable",
          body := { code := 0, data := [] } }
      = .ok emptyPriceMap :=
  fallback_failure_degrades_to_empty.2 (fun _ => 0)
    { ok := false, statusText := "Service Unavailable",
      body := { code := 0, data := [] } } (Or.inl rfl)

/-- Inversion of a successful Except bind: the first stage succeeded and the
continuation succeeded on its value. -/
theorem except_bind_ok {ε α β : Type} {x : Except ε α} {f : α → Except ε β} {r : β}
    (h : x >>= f = .ok r) : ∃ a, x = .ok a ∧ f a = .ok r := by
  cases x with
  | error e => exact absurd h (by simp [Bind.bind, Except.bind])
  | ok a => exact ⟨a, rfl, by simpa [Bind.bind, Except.bind] using h⟩

/-- A failed first stage short-circuits an Except bind. -/
theorem except_bind_error {ε α β : Type} {x : Except ε α} {f : α → Except ε β} {e : ε}
    (h : x = .error e) : x >>= f = .error e := by
  rw [h]
  rfl

/-- An account-details response with a failing status or code makes
fetchAccountDetails throw. -/
theorem fetchAccountDetails_error (aR : HttpResponse AccountDetailsResponse)
    (h : aR.ok = false ∨ aR.body.code ≠ 0) :
    ∃ e, fetchAccountDetails aR = .error e := by
  unfold fetchAccountDetails
  rcases h with h | h
  · simp [h]
  · split_ifs <;> simp_all

/-- A spot-balance response with a failing status or code makes
fetchSpotBalance throw. -/
theorem fetchSpotBalance_error (sR : HttpResponse SpotBalanceResponse)
    (h : sR.ok = false ∨ sR.body.code ≠ 0) :
    ∃ e, fetchSpotBalance sR = .error e := by
  unfold fetchSpotBalance
  rcases h with h | h
  · simp [h]
  · split_ifs <;> simp_all

/-- A primary mark-price response with a failing status or code makes
fetchMarkPrices throw. -/
theorem fetchMarkPrices_error (mR : HttpResponse MarkPriceResponse)
    (h : mR.ok = false ∨ mR.body.code ≠ 0) :
    ∃ e, fetchMarkPrices mR = .error e := by
  unfold fetchMarkPrices
  rcases h with h | h
  · simp [h]
  · split_ifs <;> simp_all

/-- A healthy account-details response is accepted as its data object. -/
theorem fetchAccountDetails_ok (aR : HttpResponse AccountDetailsResponse)
    (h1 : aR.ok = true) (h2 : aR.body.code = 0) :
    fetchAccountDetails aR = .ok aR.body.data := by
  simp [fetchAccountDetails, h1, h2]

/-- A healthy spot-balance response is accepted as its token list. -/
theorem fetchSpotBalance_ok (sR : HttpResponse SpotBalanceResponse)
    (h1 : sR.ok = true) (h2 : sR.body.code = 0) :
    fetchSpotBalance sR = .ok sR.body.data.spotBalance := by
  simp [fetchSpotBalance, h1, h2]

/-- A healthy mark-price response is accepted as its price list. -/
theorem fetchMarkPrices_ok (mR : HttpResponse MarkPriceResponse)
    (h1 : mR.ok = true) (h2 : mR.body.code = 0) :
    fetchMarkPrices mR = .ok mR.body.data := by
  simp [fetchMarkPrices, h1, h2]

/-- Claim C7: each non-fallback upstream retrieval of the aggregation
throws on a non-success HTTP status or a non-zero body code, and the thrown
error propagates out of fetchTotalBalance unchanged, with no partial result:
the aggregation yields that very error. -/
theorem upstream_failure_aborts_aggregation :
    ∀ (pf : String → Rat) (aR : HttpResponse AccountDetailsResponse)
      (sR : HttpResponse SpotBalanceResponse) (mR : HttpResponse MarkPriceResponse)
      (fR : HttpResponse FallbackMarkPriceResponse),
      ((aR.ok = false ∨ aR.body.code ≠ 0) →
        ∃ e, fetchAccountDetails aR = .error e
          ∧ fetchTotalBalance pf aR sR mR fR = .error e)
      ∧ (aR.ok = true → aR.body.code = 0 →
        (sR.ok = false ∨ sR.body.code ≠ 0) →
        ∃ e, fetchSpotBalance sR = .error e
          ∧ fetchTotalBalance pf aR sR mR fR = .error e)
      ∧ (aR.ok = true → aR.body.code = 0 →
        sR.ok = true → sR.body.code = 0 →
        (mR.ok = false ∨ mR.body.code ≠ 0) →
        ∃ e, fetchMarkPrices mR = .error e
          ∧ fetchTotalBalance pf aR sR mR fR = .error e) := by
  intro pf aR sR mR fR
  refine ⟨?_, ?_, ?_⟩
  · intro h
    obtain ⟨e, he⟩ := fetchAccountDetails_error aR h
    exact ⟨e, he, by unfold fetchTotalBalance; exact except_bind_error he⟩
  · intro ha1 ha2 h
    obtain ⟨e, he⟩ := fetchSpotBalance_error sR h
    refine ⟨e, he, ?_⟩
    unfold fetchTotalBalance
    rw [fetchAccountDetails_ok aR ha1 ha2]
    show fetchSpotBalance sR >>= _ = _
    exact except_bind_error he
  · intro ha1 ha2 hs1 hs2 h
    obtain ⟨e, he⟩ := fetchMarkPrices_error mR h
    refine ⟨e, he, ?_⟩
    unfold fetchTotalBalance
    rw [fetchAccountDetails_ok aR ha1 ha2]
    show fetchSpotBalance sR >>= _ = _
    rw [fetchSpotBalance_ok sR hs1 hs2]
    show fetchMarkPrices mR >>= _ = _
    exact except_bind_error he

/-- Concrete instance of claim C7: an account-details response with a failed
HTTP status makes the whole aggregation fail with that very error. -/
theorem upstream_failure_aborts_aggregation_witness :
    fetchTotalBalance samplePF sampleAccountRespBad sampleSpotRespOk
        sampleMarkRespOk sampleFallbackRespOk
      = .error "Failed to fetch account details: boom" := by
  obtain ⟨e, he1, he2⟩ :=
    (upstream_failure_aborts_aggregation samplePF sampleAccountRespBad sampleSpotRespOk
        sampleMarkRespOk sampleFallbackRespOk).1 (Or.inl rfl)
  have hval : fetchAccountDetails sampleAccountRespBad
      = Except.error "Failed to fetch account details: boom" := rfl
  rw [he1] at hval
  rw [← Except.error.inj hval]
  exact he2

/-- Inversion of a successful fetchAccountDetails: the value is the data
object of the response. -/
theorem fetchAccountDetails_ok_inv {aR : HttpResponse AccountDetailsResponse}
    {a : AccountDetailsData} (h : fetchAccountDetails aR = .ok a) :
    a = aR.body.data := by
  unfold fetchAccountDetails at h
  split_ifs at h
  simp_all

/-- Inversion of a successful fetchSpotBalance: the value is the spot token
list of the response. -/
theorem fetchSpotBalance_ok_inv {sR : HttpResponse SpotBalanceResponse}
    {s : List SpotBalance} (h : fetchSpotBalance sR = .ok s) :
    s = sR.body.data.spotBalance := by
  unfold fetchSpotBalance at h
  split_ifs at h
  simp_all

/-- Inversion of a successful fetchMarkPrices: the value is the mark price
list of the response. -/
theorem fetchMarkPrices_ok_inv {mR : HttpResponse MarkPriceResponse}
    {m : List MarkPrice} (h : fetchMarkPrices mR = .ok m) :
    m = mR.body.data := by
  unfold fetchMarkPrices at h
  split_ifs at h
  simp_all

/-- Claim C1: every successful fetchTotalBalance call returns a record whose
totalBalance is exactly the sum of its spotBalance and futuresBalance
fields, where spotBalance is the spot USD sum over the response tokens and
futuresBalance the parsed first futures wallet balance. -/
theorem totalBalance_is_sum (pf : String → Rat)
    (aR : HttpResponse AccountDetailsResponse) (sR : HttpResponse SpotBalanceResponse)
    (mR : HttpResponse MarkPriceResponse) (fR : HttpResponse FallbackMarkPriceResponse)
    (r : TotalBalanceResult)
    (h : fetchTotalBalance pf aR sR mR fR = .ok r) :
    r.totalBalance = r.spotBalance + r.futuresBalance
    ∧ (∃ fallbackPrices, fetchFallbackMarkPrices pf fR = .ok fallbackPrices
        ∧ r.spotBalance = spotBalanceUSD pf (buildPrimaryPriceMap pf mR.body.data)
            fallbackPrices sR.body.data.spotBalance)
    ∧ r.futuresBalance = pf (firstWalletBalanceStr aR.body.data.balances) := by
  unfold fetchTotalBalance at h
  obtain ⟨a, hA, h⟩ := except_bind_ok h
  obtain ⟨s, hS, h⟩ := except_bind_ok h
  obtain ⟨m, hM, h⟩ := except_bind_ok h
  obtain ⟨fb, hF, h⟩ := except_bind_ok h
  have hr : r = fetchTotalBalanceCore pf a s m fb := by
    have : Except.ok (ε := String) (fetchTotalBalanceCore pf a s m fb) = .ok r := h
    exact (Except.ok.inj this).symm
  subst hr
  rw [fetchAccountDetails_ok_inv hA, fetchSpotBalance_ok_inv hS, fetchMarkPrices_ok_inv hM]
  refine ⟨by simp [fetchTotalBalanceCore], ⟨fb, hF, by simp [fetchTotalBalanceCore]⟩,
    by simp [fetchTotalBalanceCore]⟩

/-- Concrete instance of claim C1: one priced spot token worth one unit and
a futures balance of one unit make a total of two. -/
theorem totalBalance_is_sum_witness :
    fetchTotalBalance samplePF sampleAccountRespOk sampleSpotRespOk
        sampleMarkRespOk sampleFallbackRespOk
      = .ok { spotBalance := 1, futuresBalance := 1, totalBalance := 2 }
    ∧ (2 : Rat) = 1 + 1 := by
  have hEval : fetchTotalBalance samplePF sampleAccountRespOk sampleSpotRespOk
      sampleMarkRespOk sampleFallbackRespOk
      = .ok { spotBalance := 1, futuresBalance := 1, totalBalance := 2 } := by
    simp [fetchTotalBalance, fetchAccountDetails, fetchSpotBalance, fetchMarkPrices,
      fetchFallbackMarkPrices, fetchTotalBalanceCore, buildPrimaryPriceMap, spotBalanceUSD,
      resolvePrice, setPrice, emptyPriceMap, symbolBase, normalizeTokenName, startsWithChar,
      dropFirstChar, firstWalletBalanceStr, jsOr, samplePF, sampleAccountRespOk,
      sampleSpotRespOk, sampleMarkRespOk, sampleFallbackRespOk, Bind.bind, Except.bind]
    norm_num
    rfl
  have hsum := (totalBalance_is_sum samplePF sampleAccountRespOk sampleSpotRespOk
      sampleMarkRespOk sampleFallbackRespOk
      { spotBalance := 1, futuresBalance := 1, totalBalance := 2 } hEval).1
  exact ⟨hEval, hsum⟩

/-- Claim C9: the futuresBalance of the aggregation is the parsed
walletBalance of the first futures balances entry, and zero when the list is
empty, provided the parse function reads the string 0 as zero. -/
theorem futuresBalance_first_entry :
    ∀ (pf : String → Rat) (accountData : AccountDetailsData)
      (spotTokens : List SpotBalance) (markPrices : List MarkPrice)
      (fallbackPrices : PriceMap),
      (∀ (b : BalanceData) (rest : List BalanceData),
        accountData.balances = b :: rest → b.walletBalance ≠ "" →
        (fetchTotalBalanceCore pf accountData spotTokens markPrices
            fallbackPrices).futuresBalance = pf b.walletBalance)
      ∧ (accountData.balances = [] → pf "0" = 0 →
        (fetchTotalBalanceCore pf accountData spotTokens markPrices
            fallbackPrices).futuresBalance = 0) := by
  intro pf accountData spotTokens markPrices fallbackPrices
  constructor
  · intro b rest hb hw
    simp [fetchTotalBalanceCore, firstWalletBalanceStr, hb, jsOr, hw]
  · intro hb h0
    simp [fetchTotalBalanceCore, firstWalletBalanceStr, hb, h0]

/-- Concrete instance of claim C9: a first wallet balance string is handed
to the parse function, and an empty balances list parses to zero. -/
theorem futuresBalance_first_entry_witness :
    (fetchTotalBalanceCore samplePF sampleAccountRespOk.body.data [] [] emptyPriceMap).futuresBalance
      = samplePF "7"
    ∧ (fetchTotalBalanceCore (fun _ => 0) sampleAccountRespBad.body.data [] [] emptyPriceMap).futuresBalance
      = 0 :=
  ⟨(futuresBalance_first_entry samplePF sampleAccountRespOk.body.data [] [] emptyPriceMap).1
      { coin := "USDC", walletBalance := "7", openOrderMarginFrozen := "0",
        availableBalance := "7" } [] rfl (by decide),
   (futuresBalance_first_entry (fun _ => 0) sampleAccountRespBad.body.data [] [] emptyPriceMap).2
      rfl rfl⟩

/-- The pagination loop, run with more fuel than the endpoint needs to stop,
returns the concatenation of the items of the pages along the cursor chain,
whatever the starting cursor. -/
theorem fetchAllPositionsLoop_stops (endpoint : Option String → FetchPositionsResult) :
    ∀ (n : Nat) (cursor : Option String) (fuel : Nat),
      stopsAfter endpoint n cursor → n < fuel →
      fetchAllPositionsLoop endpoint fuel cursor
        = some (((pagesThrough endpoint n cursor).map FetchPositionsResult.positions).flatten)
  | 0, cursor, fuel + 1, hstop, _ => by
    unfold stopsAfter at hstop
    unfold fetchAllPositionsLoop pagesThrough
    simp [hstop]
  | n + 1, cursor, fuel + 1, hstop, hfuel => by
    unfold stopsAfter at hstop
    unfold fetchAllPositionsLoop pagesThrough
    simp only [hstop.1, Bool.false_eq_true, if_false]
    rw [fetchAllPositionsLoop_stops endpoint n (endpoint cursor).nextCursor fuel
      hstop.2 (Nat.lt_of_succ_lt_succ hfuel)]
    simp

/-- Claim C8: fetchAllPositions returns the concatenation of the pages
served along the cursor chain, each page keeping its own item order, and
stops with the first page whose continuation cursor is absent: any fuel
beyond the chain length gives the same defined answer, so the loop performs
finitely many fetches. -/
theorem fetchAllPositions_concatenates_pages :
    ∀ (endpoint : Option String → FetchPositionsResult) (n fuel : Nat),
      stopsAfter endpoint n none → n < fuel →
      fetchAllPositions endpoint fuel
        = some (((pagesThrough endpoint n none).map FetchPositionsResult.positions).flatten) :=
  fun endpoint n fuel hstop hfuel =>
    fetchAllPositionsLoop_stops endpoint n none fuel hstop hfuel

/-- Concrete instance of claim C8: the mocked two-page endpoint yields the
three items of its two pages in order, with any sufficient fuel. -/
theorem fetchAllPositions_concatenates_pages_witness :
    fetchAllPositions samplePagedEndpoint 2
      = some [samplePosition 1, samplePosition 2, samplePosition 3]
    ∧ fetchAllPositions samplePagedEndpoint 9
      = some [samplePosition 1, samplePosition 2, samplePosition 3] := by
  have hs : stopsAfter samplePagedEndpoint 1 none := ⟨rfl, rfl⟩
  constructor
  · rw [fetchAllPositions_concatenates_pages samplePagedEndpoint 1 2 hs (by decide)]
    rfl
  · rw [fetchAllPositions_concatenates_pages samplePagedEndpoint 1 9 hs (by decide)]
    rfl

/-- Claim C10: the detailed-balance token list keeps exactly the spot tokens
with strictly positive parsed balance, names each by the coin with a single
leading v or w removed, and values each at the upstream usdValue when that
parses positive, else at the raw balance; and this cleanup rule differs from
normalizeTokenName, which strips only a leading v. -/
theorem detailedBalanceTokens_matches_spec :
    (∀ (pf : String → Rat) (l : List SpotTokenRaw),
        detailedBalanceTokens pf l = detailedBalanceTokensSpec pf l)
    ∧ cleanTokenCoin "wBTC" = "BTC"
    ∧ normalizeTokenName "wBTC" = "wBTC" := by
  refine ⟨fun pf l => ?_, by decide, by decide⟩
  induction l with
  | nil => rfl
  | cons t ts ih =>
    unfold detailedBalanceTokens detailedBalanceTokensSpec
    unfold detailedBalanceTokens detailedBalanceTokensSpec at ih
    by_cases h : pf (jsOr t.balance "0") > 0
    · simp only [List.filterMap_cons, List.filter_cons, gt_iff_lt] at *
      simp [h, ih]
    · simp only [List.filterMap_cons, List.filter_cons, gt_iff_lt] at *
      simp [h, ih]

/-- Modelled from the spec: every call that joins an existing pending entry
leaves the cache state untouched and awaits that entry's invocation. -/
theorem dedupCalls_pending_join {V : Type} (key : String) (i : Nat) :
    ∀ (times : List Nat) (st : CacheState V),
      st.table key = some (.pending i) →
      dedupCalls times key st
        = (st, times.map (fun _ => CallOutcome.awaitInvocation i))
  | [], st, _ => by simp [dedupCalls]
  | t :: ts, st, h => by
    unfold dedupCalls
    have hcall : dedupCall t key st = (st, .awaitInvocation i) := by
      unfold dedupCall
      rw [h]
    rw [hcall]
    simp [dedupCalls_pending_join key i ts st h]

/-- Claim C4 (modelled from the spec, lib/cache not among the sources): a
first call on an empty key starts the producer once, and N further calls
arriving while that computation is pending start nothing, all await the same
invocation, and all receive that single invocation's success or failure. -/
theorem deduplicate_single_flight :
    ∀ (V : Type) (st0 : CacheState V) (key : String) (t0 : Nat) (times : List Nat),
      st0.table key = none →
      (dedupCall t0 key st0).2 = .awaitInvocation st0.nextInvocation
      ∧ (dedupCall t0 key st0).1.producerStarts = st0.producerStarts + 1
      ∧ (dedupCalls times key (dedupCall t0 key st0).1).1 = (dedupCall t0 key st0).1
      ∧ (dedupCalls times key (dedupCall t0 key st0).1).2
          = times.map (fun _ => CallOutcome.awaitInvocation st0.nextInvocation)
      ∧ (dedupCalls times key (dedupCall t0 key st0).1).1.producerStarts
          = st0.producerStarts + 1
      ∧ ∀ (E : Type) (settled : Nat → Except E V),
          deliver settled (dedupCall t0 key st0).2
              :: ((dedupCalls times key (dedupCall t0 key st0).1).2).map (deliver settled)
            = (t0 :: times).map (fun _ => settled st0.nextInvocation) := by
  intro V st0 key t0 times h0
  have hcall : dedupCall t0 key st0
      = ({ table := setEntry st0.table key (some (.pending st0.nextInvocation))
           producerStarts := st0.producerStarts + 1
           nextInvocation := st0.nextInvocation + 1 },
         .awaitInvocation st0.nextInvocation) := by
    unfold dedupCall
    rw [h0]
  have hpend : (dedupCall t0 key st0).1.table key
      = some (.pending st0.nextInvocation) := by
    rw [hcall]
    simp [setEntry]
  have hjoin := dedupCalls_pending_join key st0.nextInvocation times
    (dedupCall t0 key st0).1 hpend
  refine ⟨by rw [hcall], by rw [hcall], by rw [hjoin], by rw [hjoin], ?_, ?_⟩
  · rw [hjoin]
    rw [hcall]
  · intro E settled
    rw [hjoin, hcall]
    simp [deliver]

/-- Concrete instance of claim C4: from the empty cache, a first call on a
key followed by three concurrent calls starts the producer once, and all
four calls receive the outcome of invocation zero. -/
theorem deduplicate_single_flight_witness :
    (dedupCall 0 "k" (emptyCacheState Nat)).2 = .awaitInvocation 0
    ∧ (dedupCall 0 "k" (emptyCacheState Nat)).1.producerStarts = 1
    ∧ (dedupCalls [1, 2, 3] "k" (dedupCall 0 "k" (emptyCacheState Nat)).1).2
        = [1, 2, 3].map (fun _ => CallOutcome.awaitInvocation 0)
    ∧ (dedupCalls [1, 2, 3] "k" (dedupCall 0 "k" (emptyCacheState Nat)).1).1.producerStarts
        = 1
    ∧ deliver (fun _ => Except.ok (ε := String) 42) (dedupCall 0 "k" (emptyCacheState Nat)).2
          :: ((dedupCalls [1, 2, 3] "k" (dedupCall 0 "k" (emptyCacheState Nat)).1).2).map
              (deliver (fun _ => Except.ok (ε := String) 42))
        = ([0, 1, 2, 3].map (fun _ => Except.ok (ε := String) 42)) := by
  have h := deduplicate_single_flight Nat (emptyCacheState Nat) "k" 0 [1, 2, 3] rfl
  exact ⟨h.1, h.2.1, h.2.2.2.1, h.2.2.2.2.1, h.2.2.2.2.2 String (fun _ => Except.ok 42)⟩

/-- Claim C5 (modelled from the spec, lib/cache not among the sources): a
successful settlement stores the value under an expiry equal to the
completion time plus the configured TTL, and a later call within that window
returns the identical stored value with the cache state unchanged, so the
producer is not started again. -/
theorem deduplicate_ttl_reuse :
    ∀ (V : Type) (ttl completionTime : Nat) (key : String) (v : V)
      (st : CacheState V) (now : Nat),
      (settleSuccess ttl completionTime key v st).table key
          = some (.fulfilled v (completionTime + ttl))
      ∧ (now < completionTime + ttl →
          dedupCall now key (settleSuccess ttl completionTime key v st)
            = (settleSuccess ttl completionTime key v st, .cachedValue v))
      ∧ (now < completionTime + ttl →
          (dedupCall now key (settleSuccess ttl completionTime key v st)).1.producerStarts
            = st.producerStarts)
      ∧ (now < completionTime + ttl → ∀ (E : Type) (settled : Nat → Except E V),
          deliver settled
              (dedupCall now key (settleSuccess ttl completionTime key v st)).2
            = .ok v) := by
  intro V ttl completionTime key v st now
  have htable : (settleSuccess ttl completionTime key v st).table key
      = some (.fulfilled v (completionTime + ttl)) := by
    simp [settleSuccess, setEntry]
  have hcall : now < completionTime + ttl →
      dedupCall now key (settleSuccess ttl completionTime key v st)
        = (settleSuccess ttl completionTime key v st, .cachedValue v) := by
    intro hlt
    unfold dedupCall
    rw [htable]
    simp [hlt]
  refine ⟨htable, hcall, ?_, ?_⟩
  · intro hlt
    rw [hcall hlt]
    simp [settleSuccess]
  · intro hlt E settled
    rw [hcall hlt]
    simp [deliver]

/-- Concrete instance of claim C5: value 42 settled at time 10 with TTL 100
is stored until 110, and a call at time 50 returns it from the cache with no
new producer start. -/
theorem deduplicate_ttl_reuse_witness :
    (settleSuccess 100 10 "k" 42 (emptyCacheState Nat)).table "k"
        = some (.fulfilled 42 110)
    ∧ dedupCall 50 "k" (settleSuccess 100 10 "k" 42 (emptyCacheState Nat))
        = (settleSuccess 100 10 "k" 42 (emptyCacheState Nat), .cachedValue 42)
    ∧ (dedupCall 50 "k" (settleSuccess 100 10 "k" 42 (emptyCacheState Nat))).1.producerStarts
        = 0
    ∧ deliver (fun _ => Except.error "unused")
          (dedupCall 50 "k" (settleSuccess 100 10 "k" 42 (emptyCacheState Nat))).2
        = .ok 42 := by
  have h := deduplicate_ttl_reuse Nat 100 10 "k" 42 (emptyCacheState Nat) 50
  exact ⟨h.1, h.2.1 (by decide), h.2.2.1 (by decide),
    h.2.2.2 (by decide) String (fun _ => Except.error "unused")⟩

end SodexApi
